import Mathlib

/-!
# BrajBhasaBuddy — verified model of the live-session controller

Shallow embedding of the live streaming session logic of
`src/hooks/useLiveGemini.ts` and `src/services/mapService.ts`:

* the PCM codec (`createBlob` / `decodeAudioData`),
* the playback scheduler inside the `onmessage` callback,
* the interruption handler,
* the `connect` / `disconnect` lifecycle,
* the tool-call dispatch to `searchMaps`.

JavaScript numbers are modelled exactly: audio samples as rationals
(multiplication by the power of two 32768, truncation, and division by
32768 are all exact in binary floating point, so the rational model is
faithful on this pipeline), clock times and durations as rationals,
and the `Int16Array` element conversion as truncation toward zero
followed by reduction modulo 2^16 into the signed range, which is the
ECMAScript `ToInt16` conversion.
-/

namespace BrajBuddy

/-! ## PCM codec (`createBlob`, `encode`, `decodeAudioData`) -/

/-- ECMAScript truncation toward zero of a (rational-valued) number,
the first step of the `ToInt16` conversion applied by the assignment
`int16[i] = data[i] * 32768` in `createBlob`. -/
def ratTrunc (q : ℚ) : ℤ :=
  if 0 ≤ q then ⌊q⌋ else ⌈q⌉

/-- ECMAScript `ToInt16`: reduce an integer modulo 2^16 into the signed
16-bit range [-32768, 32767]. -/
def toInt16 (n : ℤ) : ℤ :=
  if n % 65536 < 32768 then n % 65536 else n % 65536 - 65536

/-- The 16-bit value stored by `createBlob` for one input sample:
`int16[i] = data[i] * 32768` (no clamping, no rounding: ECMAScript
converts by truncation toward zero and wraps modulo 2^16). -/
def sampleToInt16 (x : ℚ) : ℤ :=
  toInt16 (ratTrunc (x * 32768))

/-- The little-endian byte pair of one stored 16-bit sample, as produced
by viewing the `Int16Array` buffer as a `Uint8Array` in `createBlob`. -/
def int16ToBytes (v : ℤ) : List ℤ :=
  [v % 65536 % 256, v % 65536 / 256]

/-- `floatsToPcmBytes` (the byte-producing part of `createBlob`):
each sample is converted to a 16-bit signed value and laid out as
little-endian byte pairs. -/
def floatsToPcmBytes (s : List ℚ) : List ℤ :=
  (s.map (fun x => int16ToBytes (sampleToInt16 x))).flatten

/-- Reading the byte sequence back as an `Int16Array`: consecutive
little-endian byte pairs become signed 16-bit integers (the
`new Int16Array(data.buffer)` view in `decodeAudioData`). -/
def bytesToInt16s : List ℤ → List ℤ
  | b0 :: b1 :: rest =>
      (if b0 + 256 * b1 < 32768 then b0 + 256 * b1
       else b0 + 256 * b1 - 65536) :: bytesToInt16s rest
  | _ => []

/-- `pcmBytesToFloats` (mono case of `decodeAudioData`): each 16-bit
sample is divided by 32768.0 — `channelData[i] = dataInt16[i] / 32768.0`. -/
def pcmBytesToFloats (bytes : List ℤ) : List ℚ :=
  (bytesToInt16s bytes).map (fun v : ℤ => (v : ℚ) / 32768)

/-- The stored 16-bit values of an encoded sample list, read back the
way `decodeAudioData` reads them. -/
def storedInt16s (s : List ℚ) : List ℤ :=
  bytesToInt16s (floatsToPcmBytes s)

/-- Spec-side quantizer, as the spec words it: `round(sample * 32768)`
(`round` is round-to-nearest). The source instead truncates toward
zero; the two are compared below. -/
def specRoundStored (x : ℚ) : ℤ :=
  round (x * 32768)

/-! ## Playback scheduler (the audio branch of `onmessage`) -/

/-- One scheduled playback source (`AudioBufferSourceNode`): the time
`source.start(...)` was given, the buffer's duration, and whether
`start()` has been called. Per Web Audio, `stop()` throws
`InvalidStateError` exactly when the node was never started. -/
structure Handle where
  startAt : ℚ
  duration : ℚ
  started : Bool
deriving DecidableEq

/-- Scheduler-visible state of the hook: `nextStartTimeRef.current`,
the active set `sourcesRef.current` (a `Set` iterated in insertion
order, modelled as a list), and the `isTalking` flag. -/
structure SchedState where
  nextStartTime : ℚ
  sources : List Handle
  isTalking : Bool
deriving DecidableEq

/-- The audio branch of `onmessage`, with the output clock reading
`now` (`ctx.currentTime`) and decoded buffer duration `dur`:
`setIsTalking(true)`;
`nextStartTimeRef.current = Math.max(nextStartTimeRef.current, ctx.currentTime)`;
`source.start(nextStartTimeRef.current)`;
`nextStartTimeRef.current += audioBuffer.duration`;
`sourcesRef.current.add(source)`. -/
def onAudio (st : SchedState) (now dur : ℚ) : SchedState :=
  { nextStartTime := max st.nextStartTime now + dur
    sources := st.sources ++ [⟨max st.nextStartTime now, dur, true⟩]
    isTalking := true }

/-- Process a list of inbound audio segments — pairs (clock reading at
handling time, decoded duration) — in arrival order. -/
def runAudio (st : SchedState) : List (ℚ × ℚ) → SchedState
  | [] => st
  | (now, dur) :: rest => runAudio (onAudio st now dur) rest

/-- The handles a run of the scheduler appends, starting from marker
value `ns` (pure recurrence mirroring `onAudio`). -/
def handlesFrom (ns : ℚ) : List (ℚ × ℚ) → List Handle
  | [] => []
  | (now, dur) :: rest =>
      ⟨max ns now, dur, true⟩ :: handlesFrom (max ns now + dur) rest

/-- `source.stop()`: per Web Audio it throws (`InvalidStateError`)
exactly when the node was never started. -/
def stopSource (h : Handle) : Except Unit Unit :=
  if h.started then .ok () else .error ()

/-- `sourcesRef.current.forEach(source => source.stop())` with no
try/catch around the stops: a throwing `stop()` aborts the traversal
and propagates. -/
def stopAll : List Handle → Except Unit Unit
  | [] => .ok ()
  | h :: t =>
      match stopSource h with
      | .ok _ => stopAll t
      | .error e => .error e

/-- The interruption branch of `onmessage`: stop every active source
(uncaught), clear the set, set `nextStartTimeRef.current = 0`, and
`setIsTalking(false)`. `now` is the output clock's current time at the
moment of the interruption; the code does not read the clock in this
branch. If a `stop()` throws, the handler aborts before any of the
subsequent mutations. -/
def onInterrupted (now : ℚ) (st : SchedState) : Except Unit SchedState :=
  match stopAll st.sources with
  | .error e => .error e
  | .ok _ => .ok { nextStartTime := 0, sources := [], isTalking := false }

/-! ## Session controller lifecycle (`connect` / `disconnect`) -/

/-- `ConnectionState` from `src/types` as used by the hook. -/
inductive ConnectionState
  | disconnected
  | connecting
  | connected
  | error
deriving DecidableEq

/-- Resource-visible state of the hook for the lifecycle operations:
the React connection state, whether the refs hold open audio contexts,
the active playback sources, whether the live transport and the
microphone stream are open, how many audio contexts and live sessions
have ever been created (to observe overlapping sessions), and whether
the video snapshot timer is running. -/
structure CtrlState where
  connectionState : ConnectionState
  videoTimerActive : Bool
  inputCtxOpen : Bool
  outputCtxOpen : Bool
  sources : List Handle
  sessionOpen : Bool
  micStreamActive : Bool
  inputCtxsCreated : ℕ
  outputCtxsCreated : ℕ
  sessionsOpened : ℕ
deriving DecidableEq

/-- `connect()`: no guard on the current connection state. If the API
key is missing, set `ERROR` and return. Otherwise set `CONNECTING`,
create a fresh pair of audio contexts (overwriting the refs), await
`getUserMedia` (a rejection is caught and sets `ERROR`), then issue
`ai.live.connect` — one more live session. -/
def connect (apiKeyPresent userMediaOk : Bool) (st : CtrlState) : CtrlState :=
  if apiKeyPresent = false then
    { st with connectionState := .error }
  else
    let st1 : CtrlState :=
      { st with
        connectionState := .connecting
        inputCtxOpen := true
        outputCtxOpen := true
        inputCtxsCreated := st.inputCtxsCreated + 1
        outputCtxsCreated := st.outputCtxsCreated + 1 }
    if userMediaOk = false then
      { st1 with connectionState := .error }
    else
      { st1 with
        micStreamActive := true
        sessionOpen := true
        sessionsOpened := st.sessionsOpened + 1 }

/-- `disconnect()`: clear the video timer, close both audio contexts
(ref-guarded, so a second call skips them), stop every source in the
active set — `sourcesRef.current.forEach(s => s.stop())`, uncaught —
clear the set, and set `DISCONNECTED`. It never touches
`sessionPromiseRef` (the transport is not closed) and never stops the
`getUserMedia` stream tracks. -/
def disconnect (st : CtrlState) : Except Unit CtrlState :=
  match stopAll st.sources with
  | .error e => .error e
  | .ok _ =>
      .ok { st with
        connectionState := .disconnected
        videoTimerActive := false
        inputCtxOpen := false
        outputCtxOpen := false
        sources := [] }

/-! ## Tool dispatch (`searchMaps` and the `toolCall` branch) -/

/-- `GeoLocation` from `src/types`: a latitude/longitude pair. -/
structure GeoLocation where
  lat : ℚ
  lng : ℚ
deriving DecidableEq

/-- Outcome of the underlying `ai.models.generateContent` call inside
`searchMaps`: a response whose `.text` is the given string (empty when
the response carries no text), or a thrown error with a message. -/
inductive LookupOutcome
  | ok (text : String)
  | fail (msg : String)
deriving DecidableEq

/-- `searchMaps` (src/services/mapService.ts): returns `response.text`,
substituting the "nothing found" text when the text is empty/absent,
and catching EVERY thrown error — credential errors included — into the
fixed fallback text. It never throws and never inspects the error. -/
def searchMaps (outcome : LookupOutcome) : String :=
  match outcome with
  | .ok t =>
      if t = "" then "Moiku kachu milo na (I couldn\x27t find anything)."
      else t
  | .fail _ => "Are lalla, naksha khul na ryo (Map is not loading)."

/-- One entry of `message.toolCall.functionCalls`. -/
structure FunctionCall where
  id : String
  name : String
  query : String
deriving DecidableEq

/-- One entry pushed onto `functionResponses`. -/
structure FunctionResponse where
  id : String
  name : String
  result : String
deriving DecidableEq

/-- The `toolCall` branch of `onmessage`: for each function call named
`lookUpMapInfo`, run `searchMaps` with the stored location or — when
`locationRef.current` is null — the fixed default
`{ lat: 28.6139, lng: 77.2090 }`, and push a response tagged with the
call's id; calls with other names are skipped. Returns the responses
sent back together with the lookups performed (query, location used).
`oracle` gives the outcome of the underlying remote call for a given
query and location. There is no catch in this branch and no
credential-rejected callback in the hook; `searchMaps` never throws. -/
def handleToolCall (oracle : String → GeoLocation → LookupOutcome)
    (storedLoc : Option GeoLocation) :
    List FunctionCall → List FunctionResponse × List (String × GeoLocation)
  | [] => ([], [])
  | fc :: rest =>
      let tail := handleToolCall oracle storedLoc rest
      if fc.name = "lookUpMapInfo" then
        (⟨fc.id, fc.name,
            searchMaps (oracle fc.query (storedLoc.getD ⟨28.6139, 77.2090⟩))⟩
          :: tail.1,
         (fc.query, storedLoc.getD ⟨28.6139, 77.2090⟩) :: tail.2)
      else tail

/-- Whether the tool branch signals a "credential rejected" condition
upward for the given calls. The hook wires no such callback and
`searchMaps` swallows every error, so no code path signals it: the
function is constantly `false`. -/
def credentialRejectedSignalled
    (_oracle : String → GeoLocation → LookupOutcome)
    (_storedLoc : Option GeoLocation) (_fcs : List FunctionCall) : Bool :=
  false

/-! ## Input loudness (the volume meter in `onaudioprocess`) -/

/-- The RMS computed per microphone block in `onaudioprocess`:
`sum += inputData[i] * inputData[i]` over the block, then
`rms = Math.sqrt(sum / inputData.length)`. Real-valued because of the
square root; the square root is the one place this model is not
executable. -/
noncomputable def rmsOfBlock (block : List ℝ) : ℝ :=
  Real.sqrt ((block.map (fun x => x * x)).sum / block.length)

/-- The exposed loudness observable after a block is processed:
`setVolume(Math.min(rms * 5, 1))`. -/
noncomputable def volumeOfBlock (block : List ℝ) : ℝ :=
  min (rmsOfBlock block * 5) 1

/-! ### Basic codec lemmas -/

theorem ratTrunc_nonneg_eq_floor (q : ℚ) (h : 0 ≤ q) : ratTrunc q = ⌊q⌋ := by
  unfold ratTrunc
  exact if_pos h

theorem sampleToInt16_one : sampleToInt16 1 = -32768 := by
  unfold sampleToInt16
  rw [show (1 : ℚ) * 32768 = ((32768 : ℤ) : ℚ) by norm_num,
    ratTrunc_nonneg_eq_floor _ (by norm_num), Int.floor_intCast]
  decide

theorem sampleToInt16_three_div : sampleToInt16 ((3 : ℚ)/65536) = 1 := by
  unfold sampleToInt16
  rw [show (3 : ℚ)/65536 * 32768 = 3/2 by norm_num,
    ratTrunc_nonneg_eq_floor _ (by norm_num)]
  rw [show ⌊(3 : ℚ)/2⌋ = 1 from Int.floor_eq_iff.mpr (by norm_num)]
  decide

theorem toInt16_of_mem (v : ℤ) (h1 : -32768 ≤ v) (h2 : v < 32768) :
    toInt16 v = v := by
  unfold toInt16
  split <;> omega

theorem toInt16_mem_lower (n : ℤ) : -32768 ≤ toInt16 n := by
  unfold toInt16
  split <;> omega

theorem toInt16_mem_upper (n : ℤ) : toInt16 n < 32768 := by
  unfold toInt16
  split <;> omega

/-- Decoding the little-endian byte pair of a value already in signed
16-bit range recovers the value. -/
theorem bytesToInt16s_int16ToBytes (v : ℤ) (rest : List ℤ)
    (h1 : -32768 ≤ v) (h2 : v < 32768) :
    bytesToInt16s (int16ToBytes v ++ rest) = v :: bytesToInt16s rest := by
  unfold int16ToBytes
  simp only [List.cons_append, List.nil_append, bytesToInt16s, List.cons.injEq,
    and_true, true_and]
  constructor
  · omega
  · rfl

theorem storedInt16s_cons (x : ℚ) (s : List ℚ) :
    storedInt16s (x :: s) = sampleToInt16 x :: storedInt16s s := by
  unfold storedInt16s floatsToPcmBytes
  simp only [List.map_cons, List.flatten_cons]
  exact bytesToInt16s_int16ToBytes _ _
    (toInt16_mem_lower _) (toInt16_mem_upper _)

theorem storedInt16s_eq_map (s : List ℚ) :
    storedInt16s s = s.map sampleToInt16 := by
  induction s with
  | nil => rfl
  | cons x t ih => rw [storedInt16s_cons, ih, List.map_cons]

theorem pcmBytesToFloats_floatsToPcmBytes (s : List ℚ) :
    pcmBytesToFloats (floatsToPcmBytes s) =
      s.map (fun x => (sampleToInt16 x : ℚ) / 32768) := by
  unfold pcmBytesToFloats
  rw [show bytesToInt16s (floatsToPcmBytes s) = storedInt16s s from rfl,
      storedInt16s_eq_map, List.map_map]
  rfl

theorem pcmBytesToFloats_floatsToPcmBytes_get (s : List ℚ) (i : ℕ)
    (hi : i < s.length) :
    i < (pcmBytesToFloats (floatsToPcmBytes s)).length ∧
      (pcmBytesToFloats (floatsToPcmBytes s)).get
        ⟨i, by rw [pcmBytesToFloats_floatsToPcmBytes]; simpa using hi⟩ =
        (sampleToInt16 (s.get ⟨i, hi⟩) : ℚ) / 32768 := by
  constructor
  · rw [pcmBytesToFloats_floatsToPcmBytes]; simpa using hi
  · simp [pcmBytesToFloats_floatsToPcmBytes, List.get_eq_getElem]

/-- Truncation toward zero moves a rational by strictly less than 1. -/
theorem abs_ratTrunc_sub_lt_one (q : ℚ) : |(ratTrunc q : ℚ) - q| < 1 := by
  unfold ratTrunc
  split
  · rw [abs_sub_lt_iff]
    constructor
    · linarith [Int.floor_le q]
    · linarith [Int.sub_one_lt_floor q]
  · rw [abs_sub_lt_iff]
    constructor
    · linarith [Int.ceil_lt_add_one q]
    · linarith [Int.le_ceil q]

/-- For an in-range sample `-1 ≤ x < 1` the truncated scaled value fits
the signed 16-bit range, so no wraparound occurs. -/
theorem ratTrunc_scaled_mem (x : ℚ) (h1 : -1 ≤ x) (h2 : x < 1) :
    -32768 ≤ ratTrunc (x * 32768) ∧ ratTrunc (x * 32768) < 32768 := by
  have hq1 : (-32768 : ℚ) ≤ x * 32768 := by nlinarith
  have hq2 : x * 32768 < 32768 := by nlinarith
  unfold ratTrunc
  split
  · constructor
    · have := Int.le_floor.mpr (by exact_mod_cast hq1 :
        ((-32768 : ℤ) : ℚ) ≤ x * 32768)
      omega
    · have hf : (⌊x * 32768⌋ : ℚ) ≤ x * 32768 := Int.floor_le _
      have : (⌊x * 32768⌋ : ℚ) < 32768 := lt_of_le_of_lt hf hq2
      exact_mod_cast this
  · rename_i hneg
    push_neg at hneg
    constructor
    · have hc : ((-32768 : ℤ) : ℚ) ≤ (⌈x * 32768⌉ : ℚ) :=
        le_trans (by exact_mod_cast hq1) (Int.le_ceil _)
      exact_mod_cast hc
    · have : (⌈x * 32768⌉ : ℤ) ≤ 0 :=
        Int.ceil_le.mpr (by exact_mod_cast hneg.le)
      omega

/-- Per-sample round trip for in-range samples: truncation moves the
scaled value by less than one quantization step. -/
theorem sample_roundtrip (x : ℚ) (h1 : -1 ≤ x) (h2 : x < 1) :
    |(sampleToInt16 x : ℚ) / 32768 - x| ≤ 1 / 32768 := by
  obtain ⟨hl, hu⟩ := ratTrunc_scaled_mem x h1 h2
  have hnw : sampleToInt16 x = ratTrunc (x * 32768) := by
    unfold sampleToInt16
    exact toInt16_of_mem _ hl hu
  rw [hnw,
    show (ratTrunc (x * 32768) : ℚ) / 32768 - x =
      ((ratTrunc (x * 32768) : ℚ) - x * 32768) / 32768 by ring,
    abs_div, show |(32768 : ℚ)| = 32768 by norm_num]
  exact (div_le_div_right (by norm_num)).mpr
    (abs_ratTrunc_sub_lt_one (x * 32768)).le

/-! ### Scheduler lemmas -/

theorem runAudio_sources (st : SchedState) (segs : List (ℚ × ℚ)) :
    (runAudio st segs).sources =
      st.sources ++ handlesFrom st.nextStartTime segs := by
  induction segs generalizing st with
  | nil => simp [runAudio, handlesFrom]
  | cons seg rest ih =>
      obtain ⟨now, dur⟩ := seg
      show (runAudio (onAudio st now dur) rest).sources = _
      rw [ih]
      simp [onAudio, handlesFrom, List.append_assoc]

theorem handlesFrom_length (ns : ℚ) (segs : List (ℚ × ℚ)) :
    (handlesFrom ns segs).length = segs.length := by
  induction segs generalizing ns with
  | nil => rfl
  | cons seg rest ih =>
      obtain ⟨now, dur⟩ := seg
      simp [handlesFrom, ih]

theorem take_succ_snd_sum (l : List (ℚ × ℚ)) (k : ℕ) (hk : k < l.length) :
    ((l.take (k+1)).map Prod.snd).sum
      = ((l.take k).map Prod.snd).sum + (l.get ⟨k, hk⟩).2 := by
  rw [List.map_take, List.map_take,
    List.sum_take_succ (l.map Prod.snd) k (by simpa using hk)]
  simp [List.get_eq_getElem]

/-- Core scheduling recurrence: when every arrival after the baseline
happens no later than the marker's value at that point, the k-th handle
starts exactly at `ns` plus the durations of the segments before it. -/
theorem handlesFrom_getD (segs : List (ℚ × ℚ)) (ns : ℚ)
    (hp : ∀ i (hi : i < segs.length),
      (segs.get ⟨i, hi⟩).1 ≤ ns + ((segs.take i).map Prod.snd).sum) :
    ∀ k (hk : k < segs.length),
      (handlesFrom ns segs).getD k ⟨0, 0, false⟩ =
        ⟨ns + ((segs.take k).map Prod.snd).sum,
         (segs.get ⟨k, hk⟩).2, true⟩ := by
  induction segs generalizing ns with
  | nil => intro k hk; exact absurd hk (by simp)
  | cons seg rest ih =>
      obtain ⟨now, dur⟩ := seg
      have h0 : now ≤ ns := by simpa using hp 0 (by simp)
      have hmax : max ns now = ns := max_eq_left h0
      intro k hk
      cases k with
      | zero =>
          show (handlesFrom ns ((now, dur) :: rest)).getD 0 _ = _
          rw [handlesFrom]
          simp [hmax]
      | succ k =>
          have hk' : k < rest.length := by simpa using hk
          have hp' : ∀ i (hi : i < rest.length),
              (rest.get ⟨i, hi⟩).1 ≤
                (ns + dur) + ((rest.take i).map Prod.snd).sum := by
            intro i hi
            have := hp (i+1) (by simpa using hi)
            simp only [List.get_cons_succ, List.take_succ_cons,
              List.map_cons, List.sum_cons] at this
            linarith
          have := ih (ns + dur) hp' k hk'
          show (handlesFrom ns ((now, dur) :: rest)).getD (k+1) _ = _
          rw [handlesFrom, List.getD_cons_succ, hmax, this]
          simp only [List.get_cons_succ, List.take_succ_cons,
            List.map_cons, List.sum_cons, Handle.mk.injEq]
          exact ⟨by ring, trivial, trivial⟩

/-! ### Claim C1 — gapless back-to-back scheduling -/

/-- C1: processing inbound audio segments in arrival order, each
segment is scheduled at `max(nextStart, now)` and the marker advances
by the segment's duration; whenever the later segments arrive while the
previous audio is still pending (arrival clock reading at most the
marker's value, i.e. at most the baseline plus the durations scheduled
so far), the k-th segment's scheduled start equals the baseline
`max(nextStart₀, now₀)` plus the durations of segments 1..k, with zero
gap and zero overlap between consecutive segments. -/
theorem c1_gapless_scheduling (ns0 now0 dur0 : ℚ) (rest : List (ℚ × ℚ))
    (hpending : ∀ i (hi : i < rest.length),
      (rest.get ⟨i, hi⟩).1 ≤
        max ns0 now0 + dur0 + ((rest.take i).map Prod.snd).sum) :
    (runAudio ⟨ns0, [], false⟩ ((now0, dur0) :: rest)).sources.length
        = ((now0, dur0) :: rest).length ∧
    (∀ k, k < ((now0, dur0) :: rest).length →
      ((runAudio ⟨ns0, [], false⟩ ((now0, dur0) :: rest)).sources.getD k
          ⟨0, 0, false⟩).startAt
        = max ns0 now0
          + ((((now0, dur0) :: rest).take k).map Prod.snd).sum) ∧
    (∀ k, k + 1 < ((now0, dur0) :: rest).length →
      ((runAudio ⟨ns0, [], false⟩ ((now0, dur0) :: rest)).sources.getD (k+1)
          ⟨0, 0, false⟩).startAt
        = ((runAudio ⟨ns0, [], false⟩ ((now0, dur0) :: rest)).sources.getD k
            ⟨0, 0, false⟩).startAt
          + ((runAudio ⟨ns0, [], false⟩ ((now0, dur0) :: rest)).sources.getD k
              ⟨0, 0, false⟩).duration) := by
  have hsrc : (runAudio ⟨ns0, [], false⟩ ((now0, dur0) :: rest)).sources
      = handlesFrom ns0 ((now0, dur0) :: rest) := by
    rw [runAudio_sources]
    rfl
  have hcons : handlesFrom ns0 ((now0, dur0) :: rest)
      = ⟨max ns0 now0, dur0, true⟩
        :: handlesFrom (max ns0 now0 + dur0) rest := rfl
  have hp' : ∀ i (hi : i < rest.length),
      (rest.get ⟨i, hi⟩).1 ≤
        (max ns0 now0 + dur0) + ((rest.take i).map Prod.snd).sum := by
    intro i hi
    have := hpending i hi
    linarith
  have hget : ∀ k (hk : k < rest.length),
      (handlesFrom (max ns0 now0 + dur0) rest).getD k ⟨0, 0, false⟩ =
        ⟨(max ns0 now0 + dur0) + ((rest.take k).map Prod.snd).sum,
         (rest.get ⟨k, hk⟩).2, true⟩ :=
    handlesFrom_getD rest (max ns0 now0 + dur0) hp'
  have hstart : ∀ k, k < ((now0, dur0) :: rest).length →
      ((runAudio ⟨ns0, [], false⟩ ((now0, dur0) :: rest)).sources.getD k
          ⟨0, 0, false⟩).startAt
        = max ns0 now0
          + ((((now0, dur0) :: rest).take k).map Prod.snd).sum := by
    intro k hk
    rw [hsrc, hcons]
    cases k with
    | zero => simp
    | succ k =>
        have hk' : k < rest.length := by simpa using hk
        rw [List.getD_cons_succ, hget k hk']
        simp only [List.take_succ_cons, List.map_cons, List.sum_cons]
        ring
  have hdur : ∀ k (hk : k < ((now0, dur0) :: rest).length),
      ((runAudio ⟨ns0, [], false⟩ ((now0, dur0) :: rest)).sources.getD k
          ⟨0, 0, false⟩).duration
        = (((now0, dur0) :: rest).get ⟨k, hk⟩).2 := by
    intro k hk
    rw [hsrc, hcons]
    cases k with
    | zero => simp
    | succ k =>
        have hk' : k < rest.length := by simpa using hk
        rw [List.getD_cons_succ, hget k hk']
        simp [List.get_eq_getElem]
  refine ⟨?_, hstart, ?_⟩
  · rw [hsrc, handlesFrom_length]
  · intro k hk
    have hklt : k < ((now0, dur0) :: rest).length := by omega
    rw [hstart (k+1) hk, hstart k hklt, hdur k hklt,
      take_succ_snd_sum _ k hklt]
    ring

/-- C1 witness: two segments of durations 0.5 and 0.3, the second
arriving at clock time 0.1 while the first is still pending (the
end-to-end scenario of the spec): starts are 0 and 0.5. -/
theorem c1_gapless_scheduling_witness :
    ((runAudio ⟨0, [], false⟩ [((0 : ℚ), (1 : ℚ)/2), ((1 : ℚ)/10, (3 : ℚ)/10)]).sources.getD 1
        ⟨0, 0, false⟩).startAt
      = max (0 : ℚ) 0
        + ((([((0 : ℚ), (1 : ℚ)/2), ((1 : ℚ)/10, (3 : ℚ)/10)]).take 1).map Prod.snd).sum :=
  (c1_gapless_scheduling 0 0 ((1 : ℚ)/2) [((1 : ℚ)/10, (3 : ℚ)/10)]
    (by
      intro i hi
      have h0 : i = 0 := Nat.lt_one_iff.mp (by simpa using hi)
      subst h0
      simp
      norm_num)).2.1 1 (by norm_num)

/-! ### Interruption lemmas -/

theorem stopAll_ok (hs : List Handle) (h : ∀ x ∈ hs, x.started = true) :
    stopAll hs = .ok () := by
  induction hs with
  | nil => rfl
  | cons a t ih =>
      have ha := h a (List.mem_cons_self a t)
      simp [stopAll, stopSource, ha,
        ih (fun x hx => h x (List.mem_cons_of_mem _ hx))]

theorem handlesFrom_started (ns : ℚ) (segs : List (ℚ × ℚ)) :
    ∀ x ∈ handlesFrom ns segs, x.started = true := by
  induction segs generalizing ns with
  | nil => intro x hx; simp [handlesFrom] at hx
  | cons seg rest ih =>
      obtain ⟨now, dur⟩ := seg
      intro x hx
      rw [handlesFrom] at hx
      rcases List.mem_cons.mp hx with h1 | h2
      · rw [h1]
      · exact ih _ x h2

theorem runAudio_sources_started (st : SchedState)
    (h : ∀ x ∈ st.sources, x.started = true) (segs : List (ℚ × ℚ)) :
    ∀ x ∈ (runAudio st segs).sources, x.started = true := by
  rw [runAudio_sources]
  intro x hx
  rcases List.mem_append.mp hx with h1 | h2
  · exact h x h1
  · exact handlesFrom_started _ _ x h2

/-! ### Claim C2 — interruption resets -/

/-- C2, counterexample: the claim says that after an interruption the
`nextStart` marker equals the output clock's current time. The code
sets `nextStartTimeRef.current = 0`: with the clock at time 5 and one
segment mid-playback, the marker after interruption is 0, not 5. -/
theorem c2_nextStart_not_clock_time :
    onInterrupted 5 ⟨2, [⟨0, 2, true⟩], true⟩ = .ok ⟨0, [], false⟩ ∧
    (0 : ℚ) ≠ 5 := by
  exact ⟨rfl, by norm_num⟩

/-- C2, amended: after an interruption (with every active handle
started, as the scheduler guarantees), the active set is empty,
`isTalking` is false, and the `nextStart` marker is reset to 0 — not to
the clock's current time. Because scheduling computes
`max(nextStart, now)`, a 0 marker produces the same subsequent
behavior as a "now" marker, but the stored value is 0. -/
theorem c2_interruption_clears (now : ℚ) (st : SchedState)
    (h : ∀ x ∈ st.sources, x.started = true) :
    onInterrupted now st = .ok ⟨0, [], false⟩ := by
  unfold onInterrupted
  rw [stopAll_ok st.sources h]

/-- C2 witness: interruption at clock time 7 of a state with one
mid-playback segment. -/
theorem c2_interruption_clears_witness :
    onInterrupted 7 ⟨3, [⟨1, 2, true⟩], true⟩ = .ok ⟨0, [], false⟩ :=
  c2_interruption_clears 7 ⟨3, [⟨1, 2, true⟩], true⟩ (by
    intro x hx
    rw [List.mem_singleton.mp hx])

/-! ### Claim C8 — stop errors during interruption -/

/-- C8, counterexample: the interruption handler has no try/catch
around `source.stop()`. If the active set held a handle whose `stop()`
throws (per Web Audio, a never-started node), the error propagates and
the procedure aborts: the remaining started handle is never stopped,
the set is not cleared — the stop error is NOT caught and swallowed. -/
theorem c8_stop_error_not_swallowed :
    onInterrupted 0 ⟨4, [⟨0, 1, false⟩, ⟨1, 1, true⟩], true⟩ =
      .error () := rfl

/-- C8, amended: the handler swallows nothing; it completes without
raising for every state the scheduler actually reaches because each
handle in the active set has had `start()` called, and `stop()` on a
started handle — finished or not — does not throw: from any run of
scheduled segments, interruption stops every handle and yields the
cleared state. -/
theorem c8_interruption_completes (ns0 : ℚ) (talking : Bool)
    (segs : List (ℚ × ℚ)) (now : ℚ) :
    stopAll (runAudio ⟨ns0, [], talking⟩ segs).sources = .ok () ∧
    onInterrupted now (runAudio ⟨ns0, [], talking⟩ segs) =
      .ok ⟨0, [], false⟩ := by
  have hstarted : ∀ x ∈ (runAudio ⟨ns0, [], talking⟩ segs).sources,
      x.started = true :=
    runAudio_sources_started _ (by intro x hx; simp at hx) segs
  refine ⟨stopAll_ok _ hstarted, ?_⟩
  unfold onInterrupted
  rw [stopAll_ok _ hstarted]

/-! ### Claim C5 — no concurrent-connect guard -/

/-- C5, counterexample: `connect()` called in the `Connected` state
(API key present, device acquisition succeeding) is neither a no-op nor
rejected: starting from one open session and one pair of audio
contexts, it opens a second live session, creates a second pair of
audio contexts, and moves the state to `Connecting`. -/
theorem c5_connect_not_guarded :
    (connect true true
      ⟨.connected, true, true, true, [], true, true, 1, 1, 1⟩).sessionsOpened
        = 2 ∧
    (connect true true
      ⟨.connected, true, true, true, [], true, true, 1, 1, 1⟩).inputCtxsCreated
        = 2 ∧
    (connect true true
      ⟨.connected, true, true, true, [], true, true, 1, 1, 1⟩).connectionState
        = .connecting ∧
    ConnectionState.connecting ≠ ConnectionState.connected := by
  exact ⟨rfl, rfl, rfl, by decide⟩

/-- C5, amended: `connect()` never inspects the current connection
state: from ANY state — `Connecting` and `Connected` included — with
the API key present and device acquisition succeeding, it opens one
more live session, creates one more pair of audio contexts, and sets
the state to `Connecting`. Callers must serialize their own calls. -/
theorem c5_connect_always_opens (st : CtrlState) :
    (connect true true st).sessionsOpened = st.sessionsOpened + 1 ∧
    (connect true true st).inputCtxsCreated = st.inputCtxsCreated + 1 ∧
    (connect true true st).outputCtxsCreated = st.outputCtxsCreated + 1 ∧
    (connect true true st).connectionState = .connecting := by
  unfold connect
  simp

/-! ### Claim C6 — disconnect -/

/-- C6, counterexample: the claim says `disconnect()` closes device
handles and the transport. From a connected state with an open live
session and a live microphone stream, `disconnect()` leaves both open:
it only clears the timer, closes the audio contexts, stops and clears
the sources, and sets `Disconnected`. -/
theorem c6_disconnect_leaves_transport_open :
    disconnect
        ⟨.connected, true, true, true, [⟨0, 1, true⟩], true, true, 1, 1, 1⟩ =
      .ok ⟨.disconnected, false, false, false, [], true, true, 1, 1, 1⟩ ∧
    (true : Bool) ≠ false := by
  exact ⟨rfl, by decide⟩

/-- C6, amended: `disconnect()` from any state (with every active
handle started, as the scheduler guarantees) raises no error, clears
the video timer, closes both audio contexts, stops all active playback
handles and clears the set, and forces `Disconnected`; it does NOT
close the live transport or stop the microphone device stream. It is
idempotent: a second call raises no error, changes nothing, and leaves
`Disconnected` again. -/
theorem c6_disconnect_idempotent (st : CtrlState)
    (h : ∀ x ∈ st.sources, x.started = true) :
    ∃ stB, disconnect st = .ok stB ∧
      stB.connectionState = .disconnected ∧
      stB.videoTimerActive = false ∧
      stB.inputCtxOpen = false ∧
      stB.outputCtxOpen = false ∧
      stB.sources = [] ∧
      stB.sessionOpen = st.sessionOpen ∧
      stB.micStreamActive = st.micStreamActive ∧
      disconnect stB = .ok stB := by
  have hst : stopAll st.sources = .ok () := stopAll_ok _ h
  unfold disconnect
  rw [hst]
  exact ⟨_, rfl, rfl, rfl, rfl, rfl, rfl, rfl, rfl, rfl⟩

/-- C6 witness: disconnecting a connected state with one active
playback handle, an open session and live mic stream. -/
theorem c6_disconnect_idempotent_witness :
    ∃ stB, disconnect
        ⟨.connected, true, true, true, [⟨0, 1, true⟩], true, true, 1, 1, 1⟩
          = .ok stB ∧
      stB.connectionState = .disconnected ∧
      stB.videoTimerActive = false ∧
      stB.inputCtxOpen = false ∧
      stB.outputCtxOpen = false ∧
      stB.sources = [] ∧
      stB.sessionOpen = true ∧
      stB.micStreamActive = true ∧
      disconnect stB = .ok stB :=
  c6_disconnect_idempotent
    ⟨.connected, true, true, true, [⟨0, 1, true⟩], true, true, 1, 1, 1⟩
    (by intro x hx; rw [List.mem_singleton.mp hx])

/-! ### Claim C7 — credential failures are not escalated -/

/-- C7: evaluation at the failing input. When the underlying lookup
call fails with a message indicating the credential is invalid,
`searchMaps` catches it like any other failure and substitutes the
fixed fallback text, the tool branch sends that fallback back as a
normal tool result tagged with the call id, and no credential-rejected
condition is signalled anywhere (the hook wires no such callback —
although the caller in App passes one in). -/
theorem c7_credential_error_not_escalated :
    searchMaps (.fail "API key not valid. Please pass a valid API key.") =
      "Are lalla, naksha khul na ryo (Map is not loading)." ∧
    (∀ oracle storedLoc fcs,
      credentialRejectedSignalled oracle storedLoc fcs = false) ∧
    handleToolCall
        (fun _ _ => .fail "API key not valid. Please pass a valid API key.")
        none [⟨"call-1", "lookUpMapInfo", "mandir kidhar hai"⟩] =
      ([⟨"call-1", "lookUpMapInfo",
          "Are lalla, naksha khul na ryo (Map is not loading)."⟩],
       [("mandir kidhar hai", ⟨28.6139, 77.2090⟩)]) := by
  exact ⟨rfl, fun _ _ _ => rfl, rfl⟩

/-! ### Claim C10 — default location -/

/-- C10: a `lookUpMapInfo` invocation handled while the stored location
is null is still performed, using the fixed default coordinates
latitude 28.6139, longitude 77.2090 in place of a real location, and
exactly one result tagged with the invocation's id is sent back; the
missing location neither fails nor skips the invocation. -/
theorem c10_default_location_used
    (oracle : String → GeoLocation → LookupOutcome)
    (fc : FunctionCall) (hname : fc.name = "lookUpMapInfo") :
    handleToolCall oracle none [fc] =
      ([⟨fc.id, fc.name, searchMaps (oracle fc.query ⟨28.6139, 77.2090⟩)⟩],
       [(fc.query, ⟨28.6139, 77.2090⟩)]) := by
  simp [handleToolCall, hname]

/-- C10 witness: a concrete invocation with no stored location. -/
theorem c10_default_location_used_witness :
    handleToolCall (fun _ _ => .ok "Vrindavan 10 km door hai, Lalla.") none
        [⟨"id-7", "lookUpMapInfo", "Vrindavan kitni door hai"⟩] =
      ([⟨"id-7", "lookUpMapInfo", "Vrindavan 10 km door hai, Lalla."⟩],
       [("Vrindavan kitni door hai", ⟨28.6139, 77.2090⟩)]) :=
  c10_default_location_used
    (fun _ _ => .ok "Vrindavan 10 km door hai, Lalla.")
    ⟨"id-7", "lookUpMapInfo", "Vrindavan kitni door hai"⟩ rfl

/-! ### Claim C3 — PCM round trip -/

/-- C3, counterexample: the claim "decoding the encoder's output
reproduces every sample of `s` within quantization error at most
1/32768, for all samples in [-1,1]" fails at the sample list `[1]`:
the sample 1.0 is in [-1,1], but `1 * 32768 = 32768` wraps to `-32768`,
so the decoded sample is `-1` and the error is `2 > 1/32768`. -/
theorem c3_roundtrip_fails_at_one :
    pcmBytesToFloats (floatsToPcmBytes [(1 : ℚ)]) = [-1] ∧
    ¬ |(-1 : ℚ) - 1| ≤ 1 / 32768 := by
  constructor
  · rw [pcmBytesToFloats_floatsToPcmBytes, List.map_cons, List.map_nil,
      sampleToInt16_one]
    norm_num
  · rw [show (-1 : ℚ) - 1 = -2 by norm_num, abs_neg,
      abs_of_nonneg (by norm_num : (0 : ℚ) ≤ 2)]
    norm_num

/-- C3, amended: for every sample list `s` and index `i` whose sample
lies in the half-open range `[-1, 1)`, the decode-encode round trip
preserves length and reproduces the sample within 1/32768 (at exactly
1.0 the value wraps to -1 instead, per the counterexample). -/
theorem c3_roundtrip_in_range (s : List ℚ) (i : ℕ) (hi : i < s.length)
    (h1 : -1 ≤ s.getD i 0) (h2 : s.getD i 0 < 1) :
    (pcmBytesToFloats (floatsToPcmBytes s)).length = s.length ∧
    |(pcmBytesToFloats (floatsToPcmBytes s)).getD i 0 - s.getD i 0| ≤
      1 / 32768 := by
  have hmap := pcmBytesToFloats_floatsToPcmBytes s
  constructor
  · rw [hmap, List.length_map]
  · rw [hmap, List.getD_eq_getElem?_getD, List.getElem?_map,
      List.getElem?_eq_getElem hi]
    rw [List.getD_eq_getElem?_getD, List.getElem?_eq_getElem hi] at h1 h2 ⊢
    simp only [Option.map_some', Option.getD_some] at h1 h2 ⊢
    exact sample_roundtrip _ h1 h2

/-- C3 witness: the amended theorem applied at the concrete list
`[1/3]`, index 0. -/
theorem c3_roundtrip_in_range_witness :
    (pcmBytesToFloats (floatsToPcmBytes [(1 : ℚ)/3])).length =
      [(1 : ℚ)/3].length ∧
    |(pcmBytesToFloats (floatsToPcmBytes [(1 : ℚ)/3])).getD 0 0 -
      [(1 : ℚ)/3].getD 0 0| ≤ 1 / 32768 :=
  c3_roundtrip_in_range [(1 : ℚ)/3] 0 (by decide)
    (by rw [List.getD_cons_zero]; norm_num)
    (by rw [List.getD_cons_zero]; norm_num)

/-! ### Claim C4 — quantization: truncation, not rounding -/

/-- C4, counterexample: the claim says the stored 16-bit value equals
`round(sample * 32768)`. At the in-range sample `3/65536` the scaled
value is `1.5`: the source (ECMAScript `ToInt16`) truncates it to `1`,
while `round` gives `2`. -/
theorem c4_stored_is_not_round :
    storedInt16s [(3 : ℚ)/65536] = [1] ∧
    specRoundStored ((3 : ℚ)/65536) = 2 ∧ (1 : ℤ) ≠ 2 := by
  refine ⟨?_, ?_, by decide⟩
  · rw [storedInt16s_eq_map, List.map_cons, List.map_nil,
      sampleToInt16_three_div]
  · unfold specRoundStored
    rw [show (3 : ℚ)/65536 * 32768 = 3/2 by norm_num, round_eq,
      show (3 : ℚ)/2 + 1/2 = ((2 : ℤ) : ℚ) by norm_num, Int.floor_intCast]

/-- C4, amended: `createBlob` stores, for every sample, the value
`x * 32768` truncated toward zero and reduced modulo 2^16 into the
signed 16-bit range (wraparound, no clamping and no rounding); for
samples in `[-1, 1)` no wraparound occurs and the stored value is the
plain truncation, while at the in-range sample exactly `1.0` the value
wraps to `-32768`. -/
theorem c4_stored_value_truncates (s : List ℚ) :
    storedInt16s s = s.map (fun x => toInt16 (ratTrunc (x * 32768))) ∧
    (∀ x : ℚ, -1 ≤ x → x < 1 →
      sampleToInt16 x = ratTrunc (x * 32768)) ∧
    sampleToInt16 1 = -32768 := by
  refine ⟨storedInt16s_eq_map s, ?_, sampleToInt16_one⟩
  intro x h1 h2
  obtain ⟨hl, hu⟩ := ratTrunc_scaled_mem x h1 h2
  unfold sampleToInt16
  exact toInt16_of_mem _ hl hu

/-- C4 witness: the amended theorem applied at the concrete list
`[3/65536, 1]` and, for the no-wrap part, at the sample `1/2`. -/
theorem c4_stored_value_truncates_witness :
    sampleToInt16 (1/2) = ratTrunc ((1/2 : ℚ) * 32768) :=
  (c4_stored_value_truncates [(3 : ℚ)/65536, 1]).2.1 (1/2)
    (by norm_num) (by norm_num)

/-! ### Claim C9 — input loudness -/

theorem rmsOfBlock_single (x : ℝ) (hx : 0 ≤ x) : rmsOfBlock [x] = x := by
  unfold rmsOfBlock
  simp only [List.map_cons, List.map_nil, List.sum_cons, List.sum_nil,
    add_zero, List.length_singleton, Nat.cast_one, div_one]
  exact Real.sqrt_mul_self hx

/-- C9, counterexample: the exposed observable is neither the block's
RMS nor proportional to it, and its range is clamped rather than
unbounded: the block [1] has RMS 1 but volume min(5, 1) = 1, while the
block [1/10] has RMS 1/10 and volume 1/2; no single proportionality
constant fits both, since 1 · (1/10) ≠ (1/2) · 1. -/
theorem c9_volume_not_rms :
    rmsOfBlock [(1 : ℝ)] = 1 ∧ volumeOfBlock [(1 : ℝ)] = 1 ∧
    rmsOfBlock [(1 : ℝ)/10] = 1/10 ∧ volumeOfBlock [(1 : ℝ)/10] = 1/2 ∧
    volumeOfBlock [(1 : ℝ)] * rmsOfBlock [(1 : ℝ)/10] ≠
      volumeOfBlock [(1 : ℝ)/10] * rmsOfBlock [(1 : ℝ)] := by
  have h1 : rmsOfBlock [(1 : ℝ)] = 1 := rmsOfBlock_single 1 (by norm_num)
  have h2 : rmsOfBlock [(1 : ℝ)/10] = 1/10 :=
    rmsOfBlock_single (1/10) (by norm_num)
  have h3 : volumeOfBlock [(1 : ℝ)] = 1 := by
    unfold volumeOfBlock
    rw [h1]
    exact min_eq_right (by norm_num)
  have h4 : volumeOfBlock [(1 : ℝ)/10] = 1/2 := by
    unfold volumeOfBlock
    rw [h2]
    rw [min_eq_left (by norm_num)]
    norm_num
  refine ⟨h1, h3, h2, h4, ?_⟩
  rw [h1, h2, h3, h4]
  norm_num

/-- C9, amended: on each microphone block the observable is updated to
`min(rms · 5, 1)`: a value proportional to the block's RMS with factor
5 only while the RMS is at most 1/5, and clamped to 1 above that; the
exposed range is bounded by 1 — the scaling and clamping happen inside
the hook, not in UI consumers. -/
theorem c9_volume_clamped (block : List ℝ) :
    volumeOfBlock block ≤ 1 ∧
    (rmsOfBlock block ≤ 1/5 →
      volumeOfBlock block = rmsOfBlock block * 5) := by
  refine ⟨min_le_right _ _, ?_⟩
  intro h
  unfold volumeOfBlock
  exact min_eq_left (by linarith)

/-- C9 witness: the amended theorem at the block [1/10], whose RMS 1/10
is below the clamp threshold. -/
theorem c9_volume_clamped_witness :
    volumeOfBlock [(1 : ℝ)/10] = rmsOfBlock [(1 : ℝ)/10] * 5 :=
  (c9_volume_clamped [(1 : ℝ)/10]).2
    (by rw [rmsOfBlock_single (1/10) (by norm_num)]; norm_num)

end BrajBuddy
